import Mathlib

/-!
Shallow embedding of the storage layer of the emogo backend:
`src/memory_db.py` (class `InMemoryDatabase` and its helpers) and
`src/database.py` (backend selection with in-memory fallback), together
with the one call site of `get_database` in `src/main.py` (`create_vlog`)
that indexes the returned value directly.

Python dictionaries are modelled as insertion-ordered association lists
(`dictGet` / `dictSet`): assignment to an existing key keeps its position,
assignment to a new key appends it at the end, exactly as CPython dicts
behave. A document is a dict from field name to value; only the `"_id"`
field is ever touched by this layer, so values are kept as strings.
Machine integers do not overflow here (Python ints are unbounded), so
counters are `Nat` and the `skip`/`limit` arguments, which the code
compares with `0` and may receive negative, are `Int`.
-/

namespace EmoGo

/-- Lookup in a Python-style dict (first binding of the key). -/
def dictGet {α : Type} : List (String × α) → String → Option α
  | [], _ => none
  | (k', v) :: rest, k => if k' = k then some v else dictGet rest k

/-- Assignment `m[k] = v` on a Python-style dict: an existing key keeps its
position, a new key is appended at the end. -/
def dictSet {α : Type} : List (String × α) → String → α → List (String × α)
  | [], k, v => [(k, v)]
  | (k', v') :: rest, k, v =>
      if k' = k then (k, v) :: rest else (k', v') :: dictSet rest k v

/-- A stored document: a dict from field name to value. -/
abbrev Doc := List (String × String)

/-- A filter payload (`query` argument); accepted but ignored by the code. -/
abbrev Query := List (String × String)

/-- State of `memory_db.InMemoryDatabase`: the `collections` dict mapping a
collection name to its ordered list of documents, and the id counter. -/
structure InMemoryDatabase where
  collections : List (String × List Doc)
  next_id : Nat
  deriving DecidableEq

/-- `InMemoryDatabase.__init__`: exactly the three collections `"vlogs"`,
`"sentiments"`, `"gps_coordinates"` exist, all empty, and the counter is 1. -/
def initDB : InMemoryDatabase :=
  { collections := [("vlogs", []), ("sentiments", []), ("gps_coordinates", [])]
    next_id := 1 }

/-- `InMemoryDatabase.insert_one`: stamps `document["_id"] = str(next_id)`,
increments the counter, then appends to `self.collections[collection]`.
The direct indexing raises `KeyError` when the collection key is absent:
that outcome is the `none` result (the counter increment, which in the
source happens before the failing lookup, is still applied). -/
def insert_one (db : InMemoryDatabase) (collection : String) (document : Doc) :
    InMemoryDatabase × Option String :=
  let stampedDoc := dictSet document "_id" (toString db.next_id)
  match dictGet db.collections collection with
  | some docs =>
      ({ collections := dictSet db.collections collection (docs ++ [stampedDoc])
         next_id := db.next_id + 1 },
       some (toString db.next_id))
  | none =>
      ({ collections := db.collections, next_id := db.next_id + 1 }, none)

/-- `self.collections.get(collection, [])`. -/
def collDocs (db : InMemoryDatabase) (collection : String) : List Doc :=
  (dictGet db.collections collection).getD []

/-- Python slice `docs[:l]` for an arbitrary integer `l`: a nonnegative
bound takes the first `l` elements, a negative bound drops the last `|l|`. -/
def pySlice (docs : List Doc) (l : Int) : List Doc :=
  if 0 ≤ l then docs.take l.toNat else docs.take (docs.length - l.natAbs)

/-- `InMemoryDatabase.find`: fetches the collection (empty when unknown),
applies `docs[skip:]` only when `skip > 0`, then `docs[:limit]` only when
`limit` is truthy (`None` and `0` are both falsy in Python, so both leave
the list unsliced). The `query` argument is never consulted. -/
def find (db : InMemoryDatabase) (collection : String) (query : Option Query)
    (skip : Int) (limit : Option Int) : List Doc :=
  let docs := collDocs db collection
  let docs := if 0 < skip then docs.drop skip.toNat else docs
  match limit with
  | none => docs
  | some l => if l = 0 then docs else pySlice docs l

/-- `InMemoryDatabase.count_documents`: length of the collection's list,
`0` for an unknown name; the `query` argument is never consulted. -/
def count_documents (db : InMemoryDatabase) (collection : String)
    (query : Option Query) : Nat :=
  (collDocs db collection).length

/-- Sequential driver: perform `insert_one` for each document in turn,
returning the final state and the list of per-insert results
(`some id` for a successful insert, `none` for a raised `KeyError`). -/
def insertSeq : InMemoryDatabase → String → List Doc →
    InMemoryDatabase × List (Option String)
  | db, _, [] => (db, [])
  | db, c, d :: rest =>
      let step := insert_one db c d
      let tail := insertSeq step.1 c rest
      (tail.1, step.2 :: tail.2)

/-- The documents as stored after sequential inserts starting at counter
value `n`: each one gets `"_id" = toString` of the successive counter. -/
def stamped (n : Nat) : List Doc → List Doc
  | [] => []
  | d :: rest => dictSet d "_id" (toString n) :: stamped (n + 1) rest

/-! Embedding of `src/database.py`. The environment (the two `os.getenv`
reads and whether the liveness probe `admin.command('ismaster')` would
succeed) is a parameter; the module-level singleton `db = Database()` is
threaded explicitly as a `DBState`. -/

/-- An `AsyncIOMotorClient`: the URI it was built from and whether
`close()` has been called on it. -/
structure Client where
  uri : String
  closed : Bool
  deriving DecidableEq

/-- A Motor database handle `client[database_name]`. -/
structure MongoDatabase where
  uri : String
  name : String
  deriving DecidableEq

/-- The `Database` singleton's attributes (`db.client`, `db.database`,
`db.use_memory`). -/
structure DBState where
  client : Option Client
  database : Option MongoDatabase
  use_memory : Bool
  deriving DecidableEq

/-- The state at module load: `client = None`, `database = None`,
`use_memory = False`. -/
def initState : DBState :=
  { client := none, database := none, use_memory := false }

/-- The process environment as seen by `database.py`: the value of
`MONGODB_URI`, whether the connection probe would succeed, and the value
of `DATABASE_NAME`. -/
structure Env where
  mongodb_uri : Option String
  probe_ok : Bool
  database_name : Option String
  deriving DecidableEq

/-- `connect_to_mongo`: with no URI (or an empty one — `if not mongo_uri`
is true for the empty string) it sets `use_memory`; otherwise it builds a
client and probes it, and on probe failure the catch-all `except` sets
`use_memory` (the client attribute was already assigned). It never raises:
the whole body sits in `try/except Exception`. -/
def connect_to_mongo (env : Env) (s : DBState) : DBState :=
  match env.mongodb_uri with
  | none => { s with use_memory := true }
  | some uri =>
      if uri = "" then { s with use_memory := true }
      else if env.probe_ok then
        { s with
            client := some { uri := uri, closed := false }
            database := some { uri := uri, name := env.database_name.getD "emogo_db" } }
      else
        { s with client := some { uri := uri, closed := false }, use_memory := true }

/-- `close_mongo_connection`: `if db.client: db.client.close()`. A missing
client makes it a no-op; an existing client is closed in place. -/
def close_mongo_connection (s : DBState) : DBState :=
  match s.client with
  | some c => { s with client := some { uri := c.uri, closed := true } }
  | none => s

/-- What `get_database` can hand back: the sentinel string `"memory_db"`
or a real Motor database handle (Python `None` is the `Option` none). -/
inductive DBHandle where
  | memoryMarker : DBHandle
  | mongo : MongoDatabase → DBHandle
  deriving DecidableEq

/-- `get_database`: returns the sentinel when `use_memory` is set, lazily
runs `connect_to_mongo` when no database handle exists yet, re-checks
`use_memory`, and otherwise returns `db.database`. Nothing in the body can
raise, so the `except` branch returning `None` is unreachable. -/
def get_database (env : Env) (s : DBState) : DBState × Option DBHandle :=
  if s.use_memory then (s, some DBHandle.memoryMarker)
  else
    let t := if s.database.isNone then connect_to_mongo env s else s
    if t.use_memory then (t, some DBHandle.memoryMarker)
    else (t, t.database.map DBHandle.mongo)

/-- A collection handle as produced by `get_collection`: either a
`MemoryCollection(collection_name)` or `database[collection_name]`. -/
inductive CollectionHandle where
  | memory : String → CollectionHandle
  | mongo : MongoDatabase → String → CollectionHandle
  deriving DecidableEq

/-- `get_collection`: dispatches on the value returned by `get_database`
(the sentinel gives a memory collection, `None` propagates as `None`,
a real handle is indexed by the collection name). -/
def get_collection (env : Env) (s : DBState) (collection_name : String) :
    DBState × Option CollectionHandle :=
  let res := get_database env s
  match res.2 with
  | some DBHandle.memoryMarker => (res.1, some (CollectionHandle.memory collection_name))
  | some (DBHandle.mongo d) => (res.1, some (CollectionHandle.mongo d collection_name))
  | none => (res.1, none)

/-- Direct subscripting `db[collection_name]` of a `get_database` result,
as done by `create_vlog` in `src/main.py`. On a real Motor database this
yields the collection; on the sentinel it is `"memory_db"[name]`, which
raises `TypeError` (string indices must be integers): no collection handle
is produced. -/
def indexHandle : DBHandle → String → Option CollectionHandle
  | DBHandle.mongo d, name => some (CollectionHandle.mongo d name)
  | DBHandle.memoryMarker, _ => none

/-! Dict lemmas. -/

theorem dictGet_dictSet_self {α : Type} (m : List (String × α)) (k : String) (v : α) :
    dictGet (dictSet m k v) k = some v := by
  induction m with
  | nil => simp [dictGet, dictSet]
  | cons kv rest ih =>
      obtain ⟨k', v'⟩ := kv
      by_cases hk : k' = k
      · simp [dictGet, dictSet, hk]
      · simp [dictGet, dictSet, hk, ih]

theorem stamped_length (ds : List Doc) : ∀ n : Nat, (stamped n ds).length = ds.length := by
  induction ds with
  | nil => intro n; simp [stamped]
  | cons d rest ih => intro n; simp [stamped, ih]

/-- Behaviour of `insertSeq` on a collection that exists with contents `l`:
the collection ends as `l` followed by the stamped documents, the counter
advances by the number of inserts, and the i-th insert returns
`str(next_id + i)`. -/
theorem insertSeq_spec (c : String) (ds : List Doc) :
    ∀ (db : InMemoryDatabase) (l : List Doc),
      dictGet db.collections c = some l →
      dictGet (insertSeq db c ds).1.collections c = some (l ++ stamped db.next_id ds)
      ∧ (insertSeq db c ds).1.next_id = db.next_id + ds.length
      ∧ (insertSeq db c ds).2
          = (List.range ds.length).map (fun i => some (toString (db.next_id + i))) := by
  induction ds with
  | nil =>
      intro db l h
      simp [insertSeq, stamped, h]
  | cons d rest ih =>
      intro db l h
      have hstep :
          insert_one db c d
            = ({ collections :=
                   dictSet db.collections c (l ++ [dictSet d "_id" (toString db.next_id)])
                 next_id := db.next_id + 1 },
               some (toString db.next_id)) := by
        simp [insert_one, h]
      have hget :
          dictGet (insert_one db c d).1.collections c
            = some (l ++ [dictSet d "_id" (toString db.next_id)]) := by
        rw [hstep]
        exact dictGet_dictSet_self _ _ _
      obtain ⟨ih1, ih2, ih3⟩ := ih (insert_one db c d).1 _ hget
      have hnext : (insert_one db c d).1.next_id = db.next_id + 1 := by
        rw [hstep]
      refine ⟨?_, ?_, ?_⟩
      · show dictGet (insertSeq (insert_one db c d).1 c rest).1.collections c = _
        rw [ih1, hnext]
        simp [stamped, List.append_assoc]
      · show (insertSeq (insert_one db c d).1 c rest).1.next_id = _
        rw [ih2, hnext]
        simp only [List.length_cons]
        omega
      · show (insert_one db c d).2 :: (insertSeq (insert_one db c d).1 c rest).2 = _
        rw [ih3, hnext, hstep]
        simp only [List.length_cons, List.range_succ_eq_map, List.map_cons, List.map_map]
        have hfun : (fun i => some (toString (db.next_id + 1 + i)))
            = ((fun i => some (toString (db.next_id + i))) ∘ Nat.succ) := by
          funext i
          simp [Function.comp, Nat.add_comm, Nat.add_assoc, Nat.add_left_comm]
        rw [hfun]
        simp

/-- C1: starting from a state in which `c` is a fresh (present and empty)
collection, a sequence of N inserts leaves `count_documents` at N,
`find c 0 N` returns exactly the N inserted records in insertion order,
and the minted identifiers are the strings of the successive counter
values `next_id, next_id + 1, ...`, whose underlying numbers are strictly
increasing. -/
theorem memdb_insert_sequence_spec (db : InMemoryDatabase) (c : String) (ds : List Doc)
    (hfresh : dictGet db.collections c = some []) :
    count_documents (insertSeq db c ds).1 c none = ds.length
    ∧ find (insertSeq db c ds).1 c none 0 (some (ds.length : Int)) = stamped db.next_id ds
    ∧ (insertSeq db c ds).2
        = (List.range ds.length).map (fun i => some (toString (db.next_id + i)))
    ∧ (∀ i j : Nat, i < j → db.next_id + i < db.next_id + j) := by
  obtain ⟨h1, h2, h3⟩ := insertSeq_spec c ds db [] hfresh
  simp only [List.nil_append] at h1
  refine ⟨?_, ?_, h3, fun i j hij => by omega⟩
  · simp [count_documents, collDocs, h1, stamped_length]
  · have hfind : find (insertSeq db c ds).1 c none 0 (some (ds.length : Int))
        = (if (ds.length : Int) = 0 then stamped db.next_id ds
           else pySlice (stamped db.next_id ds) (ds.length : Int)) := by
      simp [find, collDocs, h1]
    rw [hfind]
    by_cases hn : (ds.length : Int) = 0
    · simp [hn]
    · rw [if_neg hn]
      unfold pySlice
      rw [if_pos (Int.natCast_nonneg _), Int.toNat_natCast]
      rw [← stamped_length ds db.next_id]
      exact List.take_length _

/-- Concrete two-document run used by the C1 witness. -/
def wdocs : List Doc := [[("mood", "good")], [("mood", "bad")]]

/-- C1 witness: in the fresh `initDB`, inserting two documents into
`"vlogs"` gives count 2, the two records in order with ids "1" and "2",
and insert results `some "1"`, `some "2"`. -/
theorem memdb_insert_sequence_spec_witness :
    dictGet initDB.collections "vlogs" = some []
    ∧ count_documents (insertSeq initDB "vlogs" wdocs).1 "vlogs" none = 2
    ∧ find (insertSeq initDB "vlogs" wdocs).1 "vlogs" none 0 (some 2)
        = [[("mood", "good"), ("_id", "1")], [("mood", "bad"), ("_id", "2")]]
    ∧ (insertSeq initDB "vlogs" wdocs).2 = [some "1", some "2"] := by
  have h := memdb_insert_sequence_spec initDB "vlogs" wdocs (by decide)
  exact ⟨by decide, h.1.trans (by decide), h.2.1.trans (by decide),
    h.2.2.1.trans (by decide)⟩

/-- C2 counterexample: inserting into a collection name never seen before
(`"x"`, or the spec's own example `"emotions"`) does not succeed with an
id: `self.collections[collection]` raises `KeyError` (result `none`), and
no such collection is created. -/
theorem insert_unknown_collection_counterexample :
    (insert_one initDB "x" [("mood", "good")]).2 = none
    ∧ (insert_one initDB "emotions" [("mood", "good")]).2 = none
    ∧ dictGet (insert_one initDB "x" [("mood", "good")]).1.collections "x" = none := by
  decide

/-- C2 (amended): insert succeeds with id `str(next_id)` exactly when the
collection key already exists in the `collections` dict (only the three
pre-created ones ever do); for any other name it raises `KeyError`
(`none`), with the counter still incremented. Collections are NOT created
implicitly on insert. -/
theorem insert_requires_existing_collection (db : InMemoryDatabase) (c : String) (d : Doc) :
    (insert_one db c d).2.isSome = (dictGet db.collections c).isSome
    ∧ ((insert_one db c d).2 = none ↔ dictGet db.collections c = none)
    ∧ (dictGet db.collections c ≠ none →
        (insert_one db c d).2 = some (toString db.next_id))
    ∧ (insert_one db c d).1.next_id = db.next_id + 1 := by
  cases h : dictGet db.collections c <;> simp [insert_one, h]

/-- C2 amended witness: `"vlogs"` exists in the fresh store, and the
amended theorem yields a successful insert with id `str(1)` there. -/
theorem insert_requires_existing_collection_witness :
    dictGet initDB.collections "vlogs" ≠ none
    ∧ (insert_one initDB "vlogs" [("mood", "good")]).2 = some (toString initDB.next_id) :=
  ⟨by decide,
   (insert_requires_existing_collection initDB "vlogs" [("mood", "good")]).2.2.1 (by decide)⟩

/-- A concrete state with one record stored in `"vlogs"`. -/
def dbOne : InMemoryDatabase :=
  { collections :=
      [("vlogs", [[("mood", "good"), ("_id", "1")]]),
       ("sentiments", []), ("gps_coordinates", [])]
    next_id := 2 }

/-- A concrete state with two records stored in `"vlogs"`. -/
def dbTwo : InMemoryDatabase :=
  { collections :=
      [("vlogs", [[("mood", "good"), ("_id", "1")], [("mood", "bad"), ("_id", "2")]]),
       ("sentiments", []), ("gps_coordinates", [])]
    next_id := 3 }

/-- C4 counterexample: with one record stored, a query with `limit = 0`
returns that record — more than `limit` records — because `if limit:`
treats `0` as unset. -/
theorem find_limit_zero_counterexample :
    count_documents dbOne "vlogs" none = 1
    ∧ find dbOne "vlogs" none 0 (some 0) = [[("mood", "good"), ("_id", "1")]]
    ∧ ¬ (find dbOne "vlogs" none 0 (some 0)).length ≤ 0 := by
  decide

/-- Any query on a collection whose stored list is empty (in particular an
unknown name) returns the empty list, for every skip and limit. -/
theorem find_of_collDocs_nil (db : InMemoryDatabase) (c : String) (q : Option Query)
    (skip : Int) (limit : Option Int) (hd : collDocs db c = []) :
    find db c q skip limit = [] := by
  simp only [find, hd]
  have h1 : (if 0 < skip then ([] : List Doc).drop skip.toNat else []) = [] := by
    split <;> simp
  rw [h1]
  cases limit with
  | none => rfl
  | some l =>
      by_cases hl : l = 0
      · simp [hl]
      · show (if l = 0 then ([] : List Doc) else pySlice [] l) = []
        rw [if_neg hl]
        unfold pySlice
        split <;> simp

/-- C4 (amended): for nonnegative `skip`, query returns the sub-sequence
from offset `skip` in insertion order: all of it when `limit` is unset or
zero (zero is treated exactly like unset), at most `limit` records when
`limit` is positive, and the empty sequence (not an error) when `skip`
reaches past the end. -/
theorem find_pagination_spec (db : InMemoryDatabase) (c : String) (q : Option Query)
    (skip : Int) (hs : 0 ≤ skip) :
    find db c q skip none = (collDocs db c).drop skip.toNat
    ∧ find db c q skip (some 0) = (collDocs db c).drop skip.toNat
    ∧ (∀ l : Int, 0 < l →
        find db c q skip (some l) = ((collDocs db c).drop skip.toNat).take l.toNat
        ∧ (find db c q skip (some l)).length ≤ l.toNat)
    ∧ ((collDocs db c).length ≤ skip.toNat → find db c q skip none = []) := by
  have hsk : (if 0 < skip then (collDocs db c).drop skip.toNat else collDocs db c)
      = (collDocs db c).drop skip.toNat := by
    by_cases h : 0 < skip
    · rw [if_pos h]
    · rw [if_neg h]
      have h0 : skip = 0 := le_antisymm (not_lt.mp h) hs
      simp [h0]
  have hnone : find db c q skip none = (collDocs db c).drop skip.toNat := by
    simp only [find, hsk]
  refine ⟨hnone, ?_, ?_, ?_⟩
  · simp only [find, hsk]
    simp
  · intro l hl
    have hfind : find db c q skip (some l)
        = ((collDocs db c).drop skip.toNat).take l.toNat := by
      simp only [find, hsk, if_neg hl.ne.symm]
      unfold pySlice
      rw [if_pos hl.le]
    refine ⟨hfind, ?_⟩
    rw [hfind, List.length_take]
    exact min_le_left _ _
  · intro hlen
    rw [hnone]
    exact List.drop_eq_nil_of_le (le_trans hlen (le_refl _))

/-- C4 amended witness: on the one-record store, skip 1 yields nothing,
skip 0 with a large positive limit yields the full sequence, and the
result length stays within the limit. -/
theorem find_pagination_spec_witness :
    (0 : Int) ≤ 1
    ∧ find dbOne "vlogs" none 1 none = []
    ∧ find dbOne "vlogs" none 0 (some 5) = [[("mood", "good"), ("_id", "1")]]
    ∧ (find dbOne "vlogs" none 0 (some 5)).length ≤ (5 : Int).toNat := by
  have h0 := find_pagination_spec dbOne "vlogs" none 0 (by decide)
  have h1 := find_pagination_spec dbOne "vlogs" none 1 (by decide)
  refine ⟨by decide, h1.1.trans (by decide), ?_, (h0.2.2.1 5 (by decide)).2⟩
  exact (h0.2.2.1 5 (by decide)).1.trans (by decide)

/-- C6: querying or counting a collection name that does not exist in the
store returns the empty sequence and zero, not an error, for every filter,
skip and limit. -/
theorem memdb_unknown_collection (db : InMemoryDatabase) (c : String)
    (h : dictGet db.collections c = none) (q : Option Query)
    (skip : Int) (limit : Option Int) :
    find db c q skip limit = [] ∧ count_documents db c q = 0 := by
  have hd : collDocs db c = [] := by simp [collDocs, h]
  exact ⟨find_of_collDocs_nil db c q skip limit hd, by simp [count_documents, hd]⟩

/-- C6 witness: `"emotions"` was never used; query and count on it give
`[]` and `0` in the fresh store. -/
theorem memdb_unknown_collection_witness :
    dictGet initDB.collections "emotions" = none
    ∧ find initDB "emotions" none 3 (some 2) = []
    ∧ count_documents initDB "emotions" none = 0 := by
  have h := memdb_unknown_collection initDB "emotions" (by decide) none 3 (some 2)
  exact ⟨by decide, h.1, h.2⟩

/-- C7: the filter payload is ignored: on every state, any two filter
arguments (including `none`) give identical `find` results and identical
`count_documents` results, and the count is the stored sequence length. -/
theorem memdb_filter_ignored (db : InMemoryDatabase) (c : String) (q1 q2 : Option Query)
    (skip : Int) (limit : Option Int) :
    find db c q1 skip limit = find db c q2 skip limit
    ∧ count_documents db c q1 = count_documents db c q2
    ∧ count_documents db c q1 = (collDocs db c).length :=
  ⟨rfl, rfl, rfl⟩

/-- C10: a negative `limit` is applied as a Python slice bound, returning
the first `length - |limit|` records; `limit` of `0` or `None` returns all
records from `skip` onward (`drop skip.toNat`, which drops nothing when
`skip ≤ 0`); a nonpositive `skip` performs no skipping. -/
theorem find_negative_limit_spec (db : InMemoryDatabase) (c : String) (q : Option Query) :
    (∀ L : Int, L < 0 →
       find db c q 0 (some L)
         = (collDocs db c).take ((collDocs db c).length - L.natAbs))
    ∧ (∀ s : Int, find db c q s none = (collDocs db c).drop s.toNat)
    ∧ (∀ s : Int, find db c q s (some 0) = (collDocs db c).drop s.toNat)
    ∧ (∀ s : Int, s ≤ 0 →
        find db c q s none = collDocs db c ∧ find db c q s (some 0) = collDocs db c) := by
  have hskip : ∀ s : Int, (if 0 < s then (collDocs db c).drop s.toNat else collDocs db c)
      = (collDocs db c).drop s.toNat := by
    intro s
    by_cases h : 0 < s
    · rw [if_pos h]
    · rw [if_neg h]
      rw [Int.toNat_of_nonpos (not_lt.mp h)]
      simp
  refine ⟨?_, ?_, ?_, ?_⟩
  · intro L hL
    simp only [find, hskip, if_neg hL.ne]
    unfold pySlice
    rw [if_neg (not_le.mpr hL)]
    simp [List.length_drop]
  · intro s
    simp only [find, hskip]
  · intro s
    simp only [find, hskip]
    simp
  · intro s hsle
    have h0 : s.toNat = 0 := Int.toNat_of_nonpos hsle
    constructor
    · simp [find, h0]
    · simp [find, h0]

/-- C10 witness: on the two-record store, `limit = -1` drops the last
record, `limit = 0` and `limit = None` with negative skip return
everything unskipped. -/
theorem find_negative_limit_spec_witness :
    (-1 : Int) < 0
    ∧ find dbTwo "vlogs" none 0 (some (-1)) = [[("mood", "good"), ("_id", "1")]]
    ∧ find dbTwo "vlogs" none (-3) none
        = [[("mood", "good"), ("_id", "1")], [("mood", "bad"), ("_id", "2")]]
    ∧ find dbTwo "vlogs" none (-3) (some 0)
        = [[("mood", "good"), ("_id", "1")], [("mood", "bad"), ("_id", "2")]] := by
  have h := find_negative_limit_spec dbTwo "vlogs" none
  have hneg := h.1 (-1) (by decide)
  have hboth := h.2.2.2 (-3) (by decide)
  exact ⟨by decide, hneg.trans (by decide), hboth.1.trans (by decide),
    hboth.2.trans (by decide)⟩

/-! Facade lemmas. -/

/-- A state is resolved once either the memory flag is set or a database
handle exists. -/
def resolvedState (t : DBState) : Prop :=
  t.use_memory = true ∨ t.database.isSome = true

/-- `connect_to_mongo` always leaves a resolved state: every branch sets
`use_memory` or `database`. -/
theorem connect_resolves (env : Env) (s : DBState) :
    resolvedState (connect_to_mongo env s) := by
  cases hu : env.mongodb_uri with
  | none => simp [connect_to_mongo, hu, resolvedState]
  | some uri =>
      by_cases he : uri = ""
      · simp [connect_to_mongo, hu, he, resolvedState]
      · by_cases hp : env.probe_ok
        · simp [connect_to_mongo, hu, he, hp, resolvedState]
        · simp [connect_to_mongo, hu, he, hp, resolvedState]

/-- The backend kind a resolved state answers with. -/
def handleOf (t : DBState) : Option DBHandle :=
  if t.use_memory then some DBHandle.memoryMarker else t.database.map DBHandle.mongo

/-- In every branch of `get_database`, the returned value is `handleOf` of
the returned state. -/
theorem get_database_snd (env : Env) (s : DBState) :
    (get_database env s).2 = handleOf (get_database env s).1 := by
  unfold get_database
  cases hm : s.use_memory with
  | true => simp [hm, handleOf]
  | false =>
      simp only [hm, Bool.false_eq_true, if_false]
      generalize (if s.database.isNone then connect_to_mongo env s else s) = t
      cases ht : t.use_memory with
      | true => simp [ht, handleOf]
      | false => simp [ht, handleOf]

/-- `get_database` always returns a resolved state. -/
theorem get_database_resolved (env : Env) (s : DBState) :
    resolvedState (get_database env s).1 := by
  unfold get_database
  by_cases hm : s.use_memory = true
  · simp [hm, resolvedState]
  · rw [if_neg hm]
    have hres : resolvedState (if s.database.isNone then connect_to_mongo env s else s) := by
      by_cases hd : s.database.isNone = true
      · rw [if_pos hd]
        exact connect_resolves env s
      · rw [if_neg hd]
        right
        cases hdb : s.database with
        | none => rw [hdb] at hd; exact absurd rfl hd
        | some d => simp [Option.isSome]
    generalize hgen : (if s.database.isNone then connect_to_mongo env s else s) = t at hres
    by_cases ht : t.use_memory = true
    · rw [if_pos ht]
      exact hres
    · rw [if_neg ht]
      exact hres

/-- On a resolved state `get_database` is a pure read: it returns the
state unchanged together with `handleOf` of it, consulting neither the
environment nor the connection probe. -/
theorem get_database_of_resolved (env : Env) (t : DBState) (h : resolvedState t) :
    get_database env t = (t, handleOf t) := by
  unfold get_database handleOf
  cases hm : t.use_memory with
  | true => simp [hm]
  | false =>
      rcases h with h | h
      · rw [hm] at h; cases h
      · have hd : t.database.isNone = false := by
          cases hdb : t.database
          · rw [hdb] at h; simp at h
          · simp [hdb]
        simp [hm, hd]

/-- `close_mongo_connection` touches only the client attribute. -/
theorem close_fields (s : DBState) :
    (close_mongo_connection s).use_memory = s.use_memory
    ∧ (close_mongo_connection s).database = s.database := by
  unfold close_mongo_connection
  cases s.client <;> simp

/-- C3: whenever `MONGODB_URI` is absent or the connection probe fails,
`connect_to_mongo` completes (the body is a total function — the source
wraps everything in a catch-all) with the in-memory backend selected, and
`get_database` / `get_collection` on the resulting state answer with the
memory sentinel and an in-memory collection handle for every name. -/
theorem fallback_selects_memory (env : Env) (s : DBState)
    (h : env.mongodb_uri = none ∨ env.probe_ok = false) :
    (connect_to_mongo env s).use_memory = true
    ∧ (get_database env (connect_to_mongo env s)).2 = some DBHandle.memoryMarker
    ∧ (∀ name, (get_collection env (connect_to_mongo env s) name).2
        = some (CollectionHandle.memory name)) := by
  have hm : (connect_to_mongo env s).use_memory = true := by
    cases hu : env.mongodb_uri with
    | none => simp [connect_to_mongo, hu]
    | some uri =>
        rcases h with h | h
        · rw [hu] at h; cases h
        · by_cases he : uri = ""
          · simp [connect_to_mongo, hu, he]
          · simp [connect_to_mongo, hu, he, h]
  have hdb : get_database env (connect_to_mongo env s)
      = (connect_to_mongo env s, some DBHandle.memoryMarker) := by
    simp [get_database, hm]
  exact ⟨hm, by rw [hdb], fun name => by simp [get_collection, hdb]⟩

/-- The environment for the C3 and C9 witnesses: no `MONGODB_URI`. -/
def envNone : Env := { mongodb_uri := none, probe_ok := true, database_name := none }

/-- C3 witness: with no configured URI, connecting from the initial state
selects the memory backend and `get_collection "vlogs"` yields an
in-memory handle. -/
theorem fallback_selects_memory_witness :
    (envNone.mongodb_uri = none ∨ envNone.probe_ok = false)
    ∧ (connect_to_mongo envNone initState).use_memory = true
    ∧ (get_collection envNone (connect_to_mongo envNone initState) "vlogs").2
        = some (CollectionHandle.memory "vlogs") := by
  have h := fallback_selects_memory envNone initState (Or.inl rfl)
  exact ⟨Or.inl rfl, h.1, h.2.2 "vlogs"⟩

/-- C5: backend resolution is idempotent and permanent. After one
`get_database` call — under any environment, from any state — a second
call under any (possibly different) environment returns exactly the same
state and the same backend answer without re-connecting, and closing the
connection in between still leaves the same backend answer. -/
theorem backend_resolution_idempotent (env env' : Env) (s : DBState) :
    get_database env' (get_database env s).1
      = ((get_database env s).1, (get_database env s).2)
    ∧ (get_database env' (close_mongo_connection (get_database env s).1)).2
      = (get_database env s).2 := by
  have hres := get_database_resolved env s
  constructor
  · rw [get_database_of_resolved env' _ hres, get_database_snd env s]
  · have hres' : resolvedState (close_mongo_connection (get_database env s).1) := by
      unfold resolvedState
      rw [(close_fields _).1, (close_fields _).2]
      exact hres
    rw [get_database_of_resolved env' _ hres', get_database_snd env s]
    show handleOf _ = handleOf _
    unfold handleOf
    rw [(close_fields _).1, (close_fields _).2]

/-- C8: `close_mongo_connection` is safe in every state: with no client it
is a no-op (in particular before any resolution, i.e. on the initial
state), with a client it closes exactly that client, and it never touches
the chosen backend (`use_memory`, `database`). Nothing in its body can
raise. -/
theorem shutdown_safe (s : DBState) :
    (s.client = none → close_mongo_connection s = s)
    ∧ (∀ c : Client, s.client = some c →
        close_mongo_connection s
          = { s with client := some { uri := c.uri, closed := true } })
    ∧ (close_mongo_connection s).use_memory = s.use_memory
    ∧ (close_mongo_connection s).database = s.database
    ∧ close_mongo_connection initState = initState := by
  refine ⟨?_, ?_, (close_fields s).1, (close_fields s).2, rfl⟩
  · intro h
    simp [close_mongo_connection, h]
  · intro c h
    simp [close_mongo_connection, h]

/-- C8 witness: on the initial state (resolution never ran, no client),
shutdown is a no-op. -/
theorem shutdown_safe_witness :
    initState.client = none ∧ close_mongo_connection initState = initState :=
  ⟨rfl, (shutdown_safe initState).1 rfl⟩

/-- C9: with the in-memory backend active, `get_database` answers the
sentinel string `"memory_db"`, not a database handle; subscripting that
sentinel by a collection name — what `create_vlog` in `src/main.py` does —
produces no in-memory collection handle (`"memory_db"[name]` raises
`TypeError`), while `get_collection` does convert the sentinel into one. -/
theorem memory_sentinel_not_indexable (env : Env) (s : DBState) (name : String)
    (h : s.use_memory = true) :
    (get_database env s).2 = some DBHandle.memoryMarker
    ∧ indexHandle DBHandle.memoryMarker name = none
    ∧ (get_collection env s name).2 = some (CollectionHandle.memory name) := by
  have hdb : get_database env s = (s, some DBHandle.memoryMarker) := by
    simp [get_database, h]
  exact ⟨by rw [hdb], rfl, by simp [get_collection, hdb]⟩

/-- A state with the in-memory backend active (as after a fallback). -/
def memState : DBState := { client := none, database := none, use_memory := true }

/-- C9 witness: on a concrete memory-backend state, `get_database` returns
the sentinel and subscripting it by `"vlogs"` yields no handle. -/
theorem memory_sentinel_not_indexable_witness :
    memState.use_memory = true
    ∧ (get_database envNone memState).2 = some DBHandle.memoryMarker
    ∧ indexHandle DBHandle.memoryMarker "vlogs" = none
    ∧ (get_collection envNone memState "vlogs").2
        = some (CollectionHandle.memory "vlogs") := by
  have h := memory_sentinel_not_indexable envNone memState "vlogs" rfl
  exact ⟨rfl, h.1, h.2.1, h.2.2⟩

end EmoGo
